import Mathlib

/-!
Formal model of the tele-flow liquidation monitor (src/main.py).

Shallow embedding conventions:
- Python floats are modelled as rationals (ℚ); all amounts, speeds and
  thresholds in the claims are exactly representable in binary floating
  point, so rational arithmetic is faithful for them.
- Instants handled by the monitor (datetime values subtracted with
  total_seconds) are modelled as rationals standing for seconds; the two
  datetime.now calls inside one evaluation step (one at the top of
  check_and_transition, one inside the notification sender) are modelled
  as the same instant.
- SQLite TEXT timestamp cells are modelled as Lean strings; the SQL
  comparison of TEXT values (memcmp on the UTF-8 bytes) is modelled as
  lexicographic comparison of the character lists by code point.
- String manipulation is done on the underlying character lists so that
  every definition evaluates by kernel reduction.
-/

/- Configuration constants, at their documented defaults (src/main.py lines 24-41). -/

def MESSAGE_HISTORY_LIMIT : ℕ := 50

def BASE_THRESHOLD_USD_PER_SEC : ℚ := 20000

def ANALYSIS_WINDOW_SECONDS : ℚ := 300

def MONITORING_INTERVAL_SECONDS : ℚ := 10

def ACCELERATION_THRESHOLD : ℚ := 3

def DOMINANCE_THRESHOLD : ℚ := 3/4

def BIAS_THRESHOLD : ℚ := 17/20

def SUMMARY_COOLDOWN_SECONDS : ℚ := 60

def ACTIVE_IDLE_TRANSITION_GRACE_PERIOD_SECONDS : ℚ := 30

def LIQUIDATION_HISTORY_LIMIT : ℕ := 200

/- Character classes: ASCII fragments of the regex classes used by the code. -/

def isWordChar (c : Char) : Bool := c.isAlphanum || c = '_'

def isSpaceChar (c : Char) : Bool :=
  c = ' ' || c = '\t' || c = '\n' || c = '\r' || c = '\x0b' || c = '\x0c'

def digitsToNat (ds : List Char) : ℕ :=
  ds.foldl (fun n c => 10 * n + (c.toNat - 48)) 0

/-!
Datetime values. Modelled from the stdlib: datetime.fromisoformat parses
an ISO-8601 date with optional time and optional UTC offset; the model
covers the grammar YYYY-MM-DD[THH:MM[:SS[.ffffff]][+HH:MM|Z]], which
includes every timestamp this program itself writes (the sqlite3 adapter
stores str(datetime), i.e. YYYY-MM-DD HH:MM:SS[.ffffff]+00:00, and
the read path replaces the space with T before parsing).
-/

structure Datetime where
  year : ℕ
  month : ℕ
  day : ℕ
  hour : ℕ
  minute : ℕ
  second : ℕ
  microsecond : ℕ
  utcOffsetMinutes : Option ℤ
deriving DecidableEq

def isLeapYear (y : ℕ) : Bool := y % 4 = 0 && (y % 100 ≠ 0 || y % 400 = 0)

def daysInMonth (y m : ℕ) : ℕ :=
  if m = 2 then (if isLeapYear y then 29 else 28)
  else if m = 4 || m = 6 || m = 9 || m = 11 then 30
  else 31

/-- Consume exactly n digit characters, returning their value and the rest. -/
def takeFixedDigits (n : ℕ) (cs : List Char) : Option (ℕ × List Char) :=
  let pre := cs.take n
  if pre.length = n && pre.all Char.isDigit then some (digitsToNat pre, cs.drop n)
  else none

/-- Trailing UTC offset: nothing (naive), Z, or a signed +HH:MM / -HH:MM. -/
def parseTzTail (cs : List Char) : Option (Option ℤ) :=
  match cs with
  | [] => some none
  | ['Z'] => some (some 0)
  | c :: rest =>
    if c = '+' || c = '-' then
      match takeFixedDigits 2 rest with
      | some (hh, r1) =>
        match r1 with
        | ':' :: r2 =>
          match takeFixedDigits 2 r2 with
          | some (mm, r3) =>
            if r3.isEmpty && hh ≤ 23 && mm ≤ 59 then
              some (some ((if c = '-' then (-1 : ℤ) else 1) * (hh * 60 + mm)))
            else none
          | none => none
        | _ => none
      | none => none
    else none

/-- Optional seconds and fraction after HH:MM, then the offset tail. -/
def parseSecondsTail (cs : List Char) : Option (ℕ × ℕ × Option ℤ) :=
  match cs with
  | ':' :: r1 =>
    match takeFixedDigits 2 r1 with
    | some (ss, r2) =>
      match r2 with
      | '.' :: r3 =>
        let frac := r3.takeWhile Char.isDigit
        let r4 := r3.dropWhile Char.isDigit
        if 1 ≤ frac.length && frac.length ≤ 6 then
          match parseTzTail r4 with
          | some tz => if ss ≤ 59 then some (ss, digitsToNat frac * 10 ^ (6 - frac.length), tz) else none
          | none => none
        else none
      | _ =>
        match parseTzTail r2 with
        | some tz => if ss ≤ 59 then some (ss, 0, tz) else none
        | none => none
    | none => none
  | _ =>
    match parseTzTail cs with
    | some tz => some (0, 0, tz)
    | none => none

/-- Time-of-day part THH:MM... following the date. -/
def parseTimeTail (y m d : ℕ) (cs : List Char) : Option Datetime :=
  match takeFixedDigits 2 cs with
  | some (hh, r1) =>
    match r1 with
    | ':' :: r2 =>
      match takeFixedDigits 2 r2 with
      | some (mi, r3) =>
        match parseSecondsTail r3 with
        | some (ss, micro, tz) =>
          if hh ≤ 23 && mi ≤ 59 then some ⟨y, m, d, hh, mi, ss, micro, tz⟩ else none
        | none => none
      | none => none
    | _ => none
  | none => none

/-- Modelled from the stdlib: datetime.fromisoformat on the grammar above. -/
def fromIsoformat (s : String) : Option Datetime :=
  match takeFixedDigits 4 s.data with
  | some (y, r1) =>
    match r1 with
    | '-' :: r2 =>
      match takeFixedDigits 2 r2 with
      | some (m, r3) =>
        match r3 with
        | '-' :: r4 =>
          match takeFixedDigits 2 r4 with
          | some (d, r5) =>
            if 1 ≤ m && m ≤ 12 && 1 ≤ d && d ≤ daysInMonth y m then
              match r5 with
              | [] => some ⟨y, m, d, 0, 0, 0, 0, none⟩
              | 'T' :: r6 => parseTimeTail y m d r6
              | _ => none
            else none
          | none => none
        | _ => none
      | none => none
    | _ => none
  | none => none

/-- Embeds _to_datetime (src/main.py lines 66-72): replace spaces by T, then
fromisoformat; a ValueError becomes none. The code passes non-string cells
through unchanged; this program only ever stores TEXT timestamps, and the
model covers the string branch. -/
def _to_datetime (ts_val : String) : Option Datetime :=
  fromIsoformat (String.mk (ts_val.data.map (fun c => if c = ' ' then 'T' else c)))

/- The event store (SQLite liquidations table). -/

structure DbRow where
  id : ℕ
  timestamp : String
  ticker : String
  direction : String
  amount : ℚ
deriving DecidableEq

structure LiqDb where
  rows : List DbRow
  nextId : ℕ
deriving DecidableEq

def emptyDb : LiqDb := ⟨[], 1⟩

/-- Lexicographic code-point order on character lists: the order SQLite
uses (memcmp) when comparing TEXT values. -/
def charListLe : List Char → List Char → Bool
  | [], _ => true
  | _ :: _, [] => false
  | a :: as, b :: bs => if a < b then true else if b < a then false else charListLe as bs

def strLeB (a b : String) : Bool := charListLe a.data b.data

/-- ORDER BY timestamp DESC, id DESC: r1 may precede r2. -/
def trimKeyLe (r1 r2 : DbRow) : Bool :=
  if r1.timestamp = r2.timestamp then decide (r2.id ≤ r1.id)
  else strLeB r2.timestamp r1.timestamp

/-- Embeds add_liquidation (src/main.py lines 74-88): insert the new row
(with the next AUTOINCREMENT id), then delete every row whose id is not
among the LIQUIDATION_HISTORY_LIMIT first ids in (timestamp, id)
descending order. -/
def add_liquidation (db : LiqDb) (timestamp ticker direction : String) (amount : ℚ) : LiqDb :=
  let inserted := db.rows ++ [⟨db.nextId, timestamp, ticker, direction, amount⟩]
  let keptIds := ((inserted.mergeSort trimKeyLe).take LIQUIDATION_HISTORY_LIMIT).map (·.id)
  ⟨inserted.filter (fun r => keptIds.contains r.id), db.nextId + 1⟩

/- In-memory liquidation events (the Python dicts with keys timestamp,
ticker, direction, amount). -/

structure Event where
  timestamp : Datetime
  ticker : String
  direction : String
  amount : ℚ
deriving DecidableEq

/-- ORDER BY timestamp ASC on the raw TEXT cells. -/
def ascRowLe (r1 r2 : DbRow) : Bool := strLeB r1.timestamp r2.timestamp

/-- The SELECT ... WHERE timestamp BETWEEN start AND endT ORDER BY timestamp ASC
statement of get_liquidations_in_timeframe (src/main.py lines 97-100). -/
def selectBetween (rows : List DbRow) (start endT : String) : List DbRow :=
  (rows.filter (fun r => strLeB start r.timestamp && strLeB r.timestamp endT)).mergeSort ascRowLe

/-- The Python read loop body: decode one fetched row, skipping it when the
timestamp cell does not parse. -/
def rowToEvent (r : DbRow) : Option Event :=
  (_to_datetime r.timestamp).map (fun ts => ⟨ts, r.ticker, r.direction, r.amount⟩)

/-- Embeds get_liquidations_in_timeframe (src/main.py lines 90-108):
end_time defaults to now when omitted; rows between the bounds are fetched
ascending by timestamp and rows with unparseable timestamps are dropped. -/
def get_liquidations_in_timeframe (rows : List DbRow) (start_time : String)
    (end_time : Option String) (nowTs : String) : List Event :=
  (selectBetween rows start_time (end_time.getD nowTs)).filterMap rowToEvent

/- The windowed metrics calculator. -/

structure Metrics where
  speed_usd_per_sec : ℚ
  total_amount : ℚ
  total_count : ℕ
  avg_event_amount : ℚ
  dominance_info : List (String × ℚ)
  long_bias : ℚ
  short_bias : ℚ
deriving DecidableEq

/-- Total amount attributed to one ticker (the defaultdict accumulation,
src/main.py lines 138-140). -/
def tickerAmount (events : List Event) (t : String) : ℚ :=
  ((events.filter (fun e => e.ticker == t)).map (fun e => e.amount)).sum

/-- The distinct tickers present, i.e. the key set of the defaultdict. The
claims treat dominance_info as a mapping, so the key order is immaterial. -/
def distinctTickers (events : List Event) : List String :=
  (events.map (fun e => e.ticker)).dedup

/-- Embeds calculate_liquidation_metrics (src/main.py lines 134-153). -/
def calculate_liquidation_metrics (events : List Event) (window_seconds : ℚ) : Metrics :=
  let total_amount := (events.map (fun e => e.amount)).sum
  let total_count := events.length
  let long_amount := ((events.filter (fun e => e.direction == "Long")).map (fun e => e.amount)).sum
  let total_directional_amount :=
    ((events.filter (fun e => e.direction == "Long" || e.direction == "Short")).map
      (fun e => e.amount)).sum
  let long_bias := if total_directional_amount > 0 then long_amount / total_directional_amount else 0
  { speed_usd_per_sec := if window_seconds > 0 then total_amount / window_seconds else 0
    total_amount := total_amount
    total_count := total_count
    avg_event_amount := if total_count > 0 then total_amount / total_count else 0
    dominance_info :=
      if total_amount > 0 then
        (distinctTickers events).map (fun t => (t, tickerAmount events t / total_amount))
      else []
    long_bias := long_bias
    short_bias := if total_directional_amount > 0 then 1 - long_bias else 0 }

/-- Embeds calculate_acceleration (src/main.py lines 155-160). -/
def calculate_acceleration (current_speed prev_speed : ℚ) : ℚ :=
  if prev_speed > 500 then current_speed / prev_speed
  else if current_speed > 0 then ACCELERATION_THRESHOLD
  else 1

/- The message parser. -/

/-- The syntactic shape of an accepted float literal: sign, integer part
value and length, fraction value and length, exponent sign and value. -/
structure FloatParts where
  negSign : Bool
  ipVal : ℕ
  ipLen : ℕ
  fpVal : ℕ
  fpLen : ℕ
  expNeg : Bool
  expVal : ℕ
deriving DecidableEq

/-- The scanning stage of the float() model: recognise
[sign] digits [. digits] [e [sign] digits] with surrounding whitespace
tolerated, requiring at least one mantissa digit and nothing left over. -/
def pyFloatScan (cs0 : List Char) : Option FloatParts :=
  let cs1 := (((cs0.dropWhile isSpaceChar).reverse).dropWhile isSpaceChar).reverse
  let (neg, cs2) : Bool × List Char :=
    match cs1 with
    | '+' :: r => (false, r)
    | '-' :: r => (true, r)
    | _ => (false, cs1)
  let ip := cs2.takeWhile Char.isDigit
  let r1 := cs2.dropWhile Char.isDigit
  let (fp, r2) : List Char × List Char :=
    match r1 with
    | '.' :: r => (r.takeWhile Char.isDigit, r.dropWhile Char.isDigit)
    | _ => ([], r1)
  if ip.isEmpty && fp.isEmpty then none
  else
    match r2 with
    | [] => some ⟨neg, digitsToNat ip, ip.length, digitsToNat fp, fp.length, false, 0⟩
    | e :: r3 =>
      if e = 'e' || e = 'E' then
        let (eneg, r4) : Bool × List Char :=
          match r3 with
          | '+' :: r => (false, r)
          | '-' :: r => (true, r)
          | _ => (false, r3)
        let ed := r4.takeWhile Char.isDigit
        if ed.isEmpty || !(r4.dropWhile Char.isDigit).isEmpty then none
        else
          some ⟨neg, digitsToNat ip, ip.length, digitsToNat fp, fp.length, eneg, digitsToNat ed⟩
      else none

/-- Modelled from the stdlib: float() on the forms reachable here, namely
optional sign, digits with optional decimal point and fraction, optional
exponent; none when the text is not a valid float literal (underscore
separators, inf and nan are outside the modelled fragment; the inputs of
this program never contain them). The scan above recognises the literal and
this stage gives it its rational value. -/
def pyFloat (cs : List Char) : Option ℚ :=
  (pyFloatScan cs).map (fun p =>
    (if p.negSign then (-1 : ℚ) else 1) * ((p.ipVal : ℚ) + (p.fpVal : ℚ) / 10 ^ p.fpLen) *
      (10 : ℚ) ^ ((if p.expNeg then (-1 : ℤ) else 1) * (p.expVal : ℤ)))

/-- The suffix handling of _parse_amount: a trailing k selects multiplier
1000, a trailing M selects 1000000 (src/main.py lines 114-120). -/
def suffixSplit (cs : List Char) : ℕ × List Char :=
  if cs.getLast? = some 'k' then (1000, cs.dropLast)
  else if cs.getLast? = some 'M' then (1000000, cs.dropLast)
  else (1, cs)

/-- Embeds _parse_amount (src/main.py lines 111-124): empty input gives 0;
dollar signs and commas are stripped (each occurrence replaced by the empty
string); a trailing k or M picks a multiplier; a failed float parse gives 0. -/
def _parse_amount (s : String) : ℚ :=
  if s.data.isEmpty then 0
  else
    let stripped := s.data.filter (fun c => c ≠ '$' && c ≠ ',')
    let pair := suffixSplit stripped
    match pyFloat pair.2 with
    | some v => v * (pair.1 : ℚ)
    | none => 0

/-!
The regex of parse_liquidation_message, applied with re.search and
re.IGNORECASE. The pattern is matched at each starting offset, leftmost
success first, mirroring the backtracking search; for this pattern the
greedy runs never need to give characters back (each quantified class is
disjoint from the character that must follow it), except for the optional
prefix group, whose with-group alternative is tried before the without-group
one exactly as the engine does.
-/

/-- Case-insensitive literal match: returns the matched original characters
and the rest. -/
def ciMatch (pat : List Char) (cs : List Char) : Option (List Char × List Char) :=
  match pat, cs with
  | [], rest => some ([], rest)
  | _ :: _, [] => none
  | p :: ps, c :: rest =>
    if c.toLower = p then (ciMatch ps rest).map (fun pr => (c :: pr.1, pr.2))
    else none

/-- The amount group of the pattern, with IGNORECASE making the final
class match k, K, m or M. -/
def matchDollarAmount (cs : List Char) : Option (List Char) :=
  match cs with
  | '$' :: rest =>
    let digs := rest.takeWhile (fun c => c.isDigit || c = ',')
    let r1 := rest.dropWhile (fun c => c.isDigit || c = ',')
    if digs.isEmpty then none
    else
      let (dot, r2) : List Char × List Char :=
        match r1 with
        | '.' :: r => (['.'], r)
        | _ => ([], r1)
      let frac := r2.takeWhile Char.isDigit
      let r3 := r2.dropWhile Char.isDigit
      let suf : List Char :=
        match r3 with
        | c :: _ => if c = 'k' || c = 'K' || c = 'm' || c = 'M' then [c] else []
        | [] => []
      some ('$' :: digs ++ dot ++ frac ++ suf)
  | _ => none

/-- The pattern tail from the ticker group on: ticker word, spaces,
direction word, spaces, the Liquidation: literal, optional spaces, amount. -/
def matchFromTicker (cs : List Char) : Option (List Char × List Char × List Char) :=
  let trun := cs.takeWhile isWordChar
  let r1 := cs.dropWhile isWordChar
  if trun.isEmpty then none
  else if (r1.takeWhile isSpaceChar).isEmpty then none
  else
    let r2 := r1.dropWhile isSpaceChar
    match (ciMatch "long".data r2).orElse (fun _ => ciMatch "short".data r2) with
    | none => none
    | some (dir, r3) =>
      if (r3.takeWhile isSpaceChar).isEmpty then none
      else
        let r4 := r3.dropWhile isSpaceChar
        match ciMatch "liquidation:".data r4 with
        | none => none
        | some (_, r5) =>
          let r6 := r5.dropWhile isSpaceChar
          match matchDollarAmount r6 with
          | none => none
          | some amt => some (trun, dir, amt)

/-- One anchored attempt of the pattern: the hash, then the optional
word-and-colon prefix group (with-group alternative first), then the tail. -/
def matchLiqAt (cs : List Char) : Option (List Char × List Char × List Char) :=
  match cs with
  | '#' :: rest =>
    let run := rest.takeWhile isWordChar
    let after := rest.dropWhile isWordChar
    let withGroup : Option (List Char × List Char × List Char) :=
      if run.isEmpty then none
      else
        match after with
        | ':' :: after2 => matchFromTicker after2
        | _ => none
    withGroup.orElse (fun _ => matchFromTicker rest)
  | _ => none

/-- re.search: try the pattern at every offset, leftmost first. -/
def searchLiq : List Char → Option (List Char × List Char × List Char)
  | [] => none
  | c :: rest =>
    match matchLiqAt (c :: rest) with
    | some r => some r
    | none => searchLiq rest

/-- Python str.capitalize: first character upper-cased, the rest lower-cased. -/
def pyCapitalize (cs : List Char) : List Char :=
  match cs with
  | [] => []
  | c :: rest => c.toUpper :: rest.map Char.toLower

/-- Embeds parse_liquidation_message (src/main.py lines 126-132): empty or
non-matching text gives none, otherwise the upper-cased ticker, the
capitalized direction and the parsed amount. -/
def parse_liquidation_message (s : String) : Option (String × String × ℚ) :=
  if s.data.isEmpty then none
  else
    match searchLiq s.data with
    | some (t, d, a) =>
      some (String.mk (t.map Char.toUpper), String.mk (pyCapitalize d), _parse_amount (String.mk a))
    | none => none

/- The detection state machine. -/

inductive MState where
  | IDLE
  | ACTIVE
deriving DecidableEq

structure MonitorState where
  state : MState
  active_since : Option ℚ
  last_summary_sent : Option ℚ
  last_known_speed : ℚ
  prev_known_speed : ℚ
  last_above_threshold_time : Option ℚ
  active_period_events : List Event
deriving DecidableEq

/-- The constructor state (src/main.py lines 164-171). -/
def initialMonitor : MonitorState := ⟨.IDLE, none, none, 0, 0, none, []⟩

/-- The payload handed to _send_summary_notification on an ACTIVE to IDLE
transition: the recomputed metrics, the acceleration, and the baseline
speed shown for context. -/
structure SummaryPayload where
  metrics : Metrics
  acceleration : ℚ
  prev_speed : ℚ
deriving DecidableEq

/-- Embeds check_and_transition (src/main.py lines 228-278) as one
evaluation step.

- idleWindowEvents stands for the value of
  get_liquidations_in_timeframe(conn, now - ANALYSIS_WINDOW_SECONDS, now),
  the only use the step makes of the database connection (IDLE branch only).
- sendOk is true when the webhook is configured and the HTTP post of the
  summary succeeds (raise_for_status does not throw); in exactly that case
  _send_summary_notification records last_summary_sent (lines 219-226).
- The source computes the window events and duration with one test of
  self.state and then branches on the same unchanged state; the two
  branches are merged into one match here.
- In the ACTIVE branch the source subtracts last_above_threshold_time and
  active_since directly, raising TypeError when they are None; every
  reachable ACTIVE state has both set, and the theorems below restrict to
  such states, so the model reads them with getD 0.
- The transition body sets last_known_speed to 0 and prev_known_speed to 0
  (lines 273-274), after which the unconditional end-of-branch update
  (line 278) overwrites last_known_speed with current_speed; the model
  stores the net effect. -/
def check_and_transition (s : MonitorState) (idleWindowEvents : List Event) (now : ℚ)
    (sendOk : Bool) : MonitorState × Option SummaryPayload :=
  match s.state with
  | .IDLE =>
    let events := idleWindowEvents
    let current_speed :=
      (calculate_liquidation_metrics events ANALYSIS_WINDOW_SECONDS).speed_usd_per_sec
    if current_speed ≥ BASE_THRESHOLD_USD_PER_SEC then
      let cooldownBlocks : Bool :=
        match s.last_summary_sent with
        | some t => decide (now - t < SUMMARY_COOLDOWN_SECONDS)
        | none => false
      if cooldownBlocks then
        (s, none)
      else
        ({ s with
            state := .ACTIVE
            active_since := some now
            active_period_events := events
            prev_known_speed := s.last_known_speed
            last_above_threshold_time := some now
            last_known_speed := current_speed }, none)
    else ({ s with last_known_speed := current_speed }, none)
  | .ACTIVE =>
    let events := s.active_period_events
    let window_duration :=
      match s.active_since with
      | some t => now - t
      | none => ANALYSIS_WINDOW_SECONDS
    let current_speed :=
      (calculate_liquidation_metrics events window_duration).speed_usd_per_sec
    if current_speed < BASE_THRESHOLD_USD_PER_SEC then
      if now - (s.last_above_threshold_time.getD 0) ≥
          ACTIVE_IDLE_TRANSITION_GRACE_PERIOD_SECONDS then
        let summary_metrics :=
          calculate_liquidation_metrics s.active_period_events (now - (s.active_since.getD 0))
        let acceleration :=
          calculate_acceleration summary_metrics.speed_usd_per_sec s.prev_known_speed
        let afterSend := if sendOk then { s with last_summary_sent := some now } else s
        ({ afterSend with
            state := .IDLE
            active_since := none
            active_period_events := []
            prev_known_speed := 0
            last_known_speed := current_speed },
          some ⟨summary_metrics, acceleration, s.prev_known_speed⟩)
      else ({ s with last_known_speed := current_speed }, none)
    else
      ({ s with last_above_threshold_time := some now, last_known_speed := current_speed }, none)

/-- A fixed sample instant used by concrete witnesses. -/
def sampleTs : Datetime := ⟨2024, 1, 5, 12, 0, 0, 0, some 0⟩

/-- Well-formedness of the store maintained by the AUTOINCREMENT column:
ids are distinct and below the next id to be assigned. -/
def WFDb (db : LiqDb) : Prop :=
  (db.rows.map (fun r => r.id)).Nodup ∧ ∀ r ∈ db.rows, r.id < db.nextId

/- Helper lemmas. -/

theorem charListLe_total (a b : List Char) : charListLe a b = true ∨ charListLe b a = true := by
  induction a generalizing b with
  | nil => left; rfl
  | cons x xs ih =>
    cases b with
    | nil => right; rfl
    | cons y ys =>
      rcases lt_trichotomy x y with h | h | h
      · left; simp [charListLe, h]
      · subst h
        rcases ih ys with h2 | h2
        · left; simp [charListLe, lt_irrefl, h2]
        · right; simp [charListLe, lt_irrefl, h2]
      · right; simp [charListLe, h]

theorem charListLe_trans {a b c : List Char} (hab : charListLe a b = true)
    (hbc : charListLe b c = true) : charListLe a c = true := by
  induction a generalizing b c with
  | nil => rfl
  | cons x xs ih =>
    cases b with
    | nil => simp [charListLe] at hab
    | cons y ys =>
      cases c with
      | nil => simp [charListLe] at hbc
      | cons z zs =>
        simp only [charListLe] at hab hbc ⊢
        by_cases hxy : x < y
        · by_cases hyz : y < z
          · simp [lt_trans hxy hyz]
          · by_cases hzy : z < y
            · simp [hyz, hzy] at hbc
            · have hyeq : y = z := le_antisymm (le_of_not_lt hzy) (le_of_not_lt hyz)
              subst hyeq
              simp [hxy]
        · by_cases hyx : y < x
          · simp [hxy, hyx] at hab
          · have hxeq : x = y := le_antisymm (le_of_not_lt hyx) (le_of_not_lt hxy)
            subst hxeq
            simp only [lt_irrefl, if_neg, not_false_iff] at hab
            by_cases hxz : x < z
            · simp [hxz]
            · by_cases hzx : z < x
              · simp [hxz, hzx] at hbc
              · have hxeq2 : x = z := le_antisymm (le_of_not_lt hzx) (le_of_not_lt hxz)
                subst hxeq2
                simp only [lt_irrefl, if_neg, not_false_iff] at hbc ⊢
                exact ih hab hbc

theorem ascRowLe_total (r1 r2 : DbRow) : (ascRowLe r1 r2 || ascRowLe r2 r1) = true := by
  rcases charListLe_total r1.timestamp.data r2.timestamp.data with h | h <;>
    simp [ascRowLe, strLeB, h]

theorem ascRowLe_trans (r1 r2 r3 : DbRow) (h12 : ascRowLe r1 r2 = true)
    (h23 : ascRowLe r2 r3 = true) : ascRowLe r1 r3 = true :=
  charListLe_trans h12 h23

theorem list_sum_map_add {α : Type} (l : List α) (f g : α → ℚ) :
    (l.map (fun x => f x + g x)).sum = (l.map f).sum + (l.map g).sum := by
  induction l with
  | nil => simp
  | cons a t ih => simp only [List.map_cons, List.sum_cons, ih]; ring

theorem list_sum_map_div {α : Type} (l : List α) (f : α → ℚ) (c : ℚ) :
    (l.map (fun x => f x / c)).sum = (l.map f).sum / c := by
  induction l with
  | nil => simp
  | cons a t ih => simp only [List.map_cons, List.sum_cons, ih, add_div]

theorem sum_map_ite_of_not_mem (ts : List String) (x : String) (hx : x ∉ ts) (a : ℚ) :
    (ts.map (fun t => if x = t then a else 0)).sum = 0 := by
  induction ts with
  | nil => simp
  | cons t ts ih =>
    rw [List.mem_cons, not_or] at hx
    simp only [List.map_cons, List.sum_cons, if_neg hx.1, ih hx.2, add_zero]

theorem sum_map_ite_of_mem (ts : List String) (hnd : ts.Nodup) (x : String) (hx : x ∈ ts)
    (a : ℚ) : (ts.map (fun t => if x = t then a else 0)).sum = a := by
  induction ts with
  | nil => cases hx
  | cons t ts ih =>
    rcases List.mem_cons.mp hx with h | h
    · subst h
      rw [List.map_cons, List.sum_cons, if_pos rfl,
        sum_map_ite_of_not_mem ts x (List.nodup_cons.mp hnd).1 a, add_zero]
    · have hxt : x ≠ t := by
        rintro rfl
        exact (List.nodup_cons.mp hnd).1 h
      rw [List.map_cons, List.sum_cons, if_neg hxt, ih (List.nodup_cons.mp hnd).2 h, zero_add]

theorem tickerAmount_cons (e : Event) (es : List Event) (t : String) :
    tickerAmount (e :: es) t = (if e.ticker = t then e.amount else 0) + tickerAmount es t := by
  by_cases h : e.ticker = t
  · simp [tickerAmount, List.filter_cons, h]
  · simp [tickerAmount, List.filter_cons, h]

theorem sum_tickerAmount (events : List Event) (ts : List String) (hnd : ts.Nodup)
    (hcov : ∀ e ∈ events, e.ticker ∈ ts) :
    (ts.map (fun t => tickerAmount events t)).sum = (events.map (fun e => e.amount)).sum := by
  induction events with
  | nil => simp [tickerAmount]
  | cons e es ih =>
    have h1 : ts.map (fun t => tickerAmount (e :: es) t) =
        ts.map (fun t => (if e.ticker = t then e.amount else 0) + tickerAmount es t) :=
      List.map_congr_left (fun t _ => tickerAmount_cons e es t)
    rw [h1, list_sum_map_add, sum_map_ite_of_mem ts hnd e.ticker (hcov e (by simp)) e.amount,
      List.map_cons, List.sum_cons, ih (fun x hx => hcov x (List.mem_cons_of_mem e hx))]

theorem nodup_subset_length {α : Type} [DecidableEq α] {l s : List α} (hnd : l.Nodup)
    (hsub : ∀ x ∈ l, x ∈ s) : l.length ≤ s.length := by
  calc l.length = l.toFinset.card := (List.toFinset_card_of_nodup hnd).symm
    _ ≤ s.toFinset.card := Finset.card_le_card (fun x hx => by
        rw [List.mem_toFinset] at hx ⊢
        exact hsub x hx)
    _ ≤ s.length := List.toFinset_card_le s

theorem rowToEvent_eq_some {r : DbRow} {ev : Event} :
    rowToEvent r = some ev ↔
      (_to_datetime r.timestamp = some ev.timestamp ∧ ev.ticker = r.ticker ∧
        ev.direction = r.direction ∧ ev.amount = r.amount) := by
  cases ev with
  | mk ts tk d a =>
    simp only [rowToEvent, Option.map_eq_some', Event.mk.injEq]
    constructor
    · rintro ⟨x, hx, rfl, rfl, rfl, rfl⟩
      exact ⟨hx, rfl, rfl, rfl⟩
    · rintro ⟨hx, rfl, rfl, rfl⟩
      exact ⟨ts, hx, rfl, rfl, rfl, rfl⟩

theorem add_liquidation_spec (db : LiqDb) (ts tk dr : String) (a : ℚ) (h : WFDb db) :
    (add_liquidation db ts tk dr a).rows.length ≤ LIQUIDATION_HISTORY_LIMIT ∧
      WFDb (add_liquidation db ts tk dr a) := by
  obtain ⟨hnd, hlt⟩ := h
  simp only [add_liquidation, WFDb]
  set newRow : DbRow := ⟨db.nextId, ts, tk, dr, a⟩ with hnew
  set inserted := db.rows ++ [newRow] with hins
  set keptIds :=
    ((inserted.mergeSort trimKeyLe).take LIQUIDATION_HISTORY_LIMIT).map (fun r => r.id)
    with hkept
  have hinsNodup : (inserted.map (fun r => r.id)).Nodup := by
    rw [hins, List.map_append, List.nodup_append]
    refine ⟨hnd, List.nodup_singleton _, ?_⟩
    intro x hx hx2
    rcases List.mem_map.mp hx with ⟨r, hr, rfl⟩
    simp only [List.map_cons, List.map_nil, List.mem_singleton] at hx2
    exact absurd (hx2 ▸ hlt r hr) (lt_irrefl _)
  have hfilterSub : (inserted.filter (fun r => keptIds.contains r.id)).Sublist inserted :=
    List.filter_sublist _
  have hmapSub :
      ((inserted.filter (fun r => keptIds.contains r.id)).map (fun r => r.id)).Sublist
        (inserted.map (fun r => r.id)) := hfilterSub.map _
  have hndFiltered := hinsNodup.sublist hmapSub
  refine ⟨?_, hndFiltered, ?_⟩
  · have hsub : ∀ x ∈ (inserted.filter (fun r => keptIds.contains r.id)).map (fun r => r.id),
        x ∈ keptIds := by
      intro x hx
      rcases List.mem_map.mp hx with ⟨r, hr, rfl⟩
      have hc := (List.mem_filter.mp hr).2
      exact List.mem_of_elem_eq_true hc
    calc (inserted.filter (fun r => keptIds.contains r.id)).length
        = ((inserted.filter (fun r => keptIds.contains r.id)).map (fun r => r.id)).length :=
          (List.length_map _ _).symm
      _ ≤ keptIds.length := nodup_subset_length hndFiltered hsub
      _ ≤ LIQUIDATION_HISTORY_LIMIT := by
          rw [hkept, List.length_map]
          exact List.length_take_le _ _
  · intro r hr
    have hrIns : r ∈ inserted := hfilterSub.subset hr
    rw [hins] at hrIns
    rcases List.mem_append.mp hrIns with hmem | hmem
    · exact lt_trans (hlt r hmem) (Nat.lt_succ_self _)
    · rw [List.mem_singleton] at hmem
      subst hmem
      exact Nat.lt_succ_self _

/- Characterization of the evaluation step, one lemma per source branch. -/

theorem idle_fire (s : MonitorState) (events : List Event) (now : ℚ) (sendOk : Bool)
    (hIdle : s.state = MState.IDLE)
    (hspeed : (calculate_liquidation_metrics events ANALYSIS_WINDOW_SECONDS).speed_usd_per_sec ≥
      BASE_THRESHOLD_USD_PER_SEC)
    (hcool : s.last_summary_sent = none ∨
      ∃ t, s.last_summary_sent = some t ∧ now - t ≥ SUMMARY_COOLDOWN_SECONDS) :
    check_and_transition s events now sendOk =
      ({ s with
          state := MState.ACTIVE
          active_since := some now
          active_period_events := events
          prev_known_speed := s.last_known_speed
          last_above_threshold_time := some now
          last_known_speed :=
            (calculate_liquidation_metrics events
              ANALYSIS_WINDOW_SECONDS).speed_usd_per_sec }, none) := by
  simp only [check_and_transition, hIdle]
  rw [if_pos hspeed]
  rcases hcool with h | ⟨t, ht, hge⟩
  · simp [h]
  · simp [ht, not_lt.mpr hge]

theorem idle_blocked {t : ℚ} (s : MonitorState) (events : List Event) (now : ℚ) (sendOk : Bool)
    (hIdle : s.state = MState.IDLE)
    (hspeed : (calculate_liquidation_metrics events ANALYSIS_WINDOW_SECONDS).speed_usd_per_sec ≥
      BASE_THRESHOLD_USD_PER_SEC)
    (ht : s.last_summary_sent = some t) (hlt : now - t < SUMMARY_COOLDOWN_SECONDS) :
    check_and_transition s events now sendOk = (s, none) := by
  simp only [check_and_transition, hIdle]
  rw [if_pos hspeed]
  simp [ht, hlt]

theorem active_fire {a b : ℚ} (s : MonitorState) (events : List Event) (now : ℚ) (sendOk : Bool)
    (hA : s.state = MState.ACTIVE) (ha : s.active_since = some a)
    (hb : s.last_above_threshold_time = some b)
    (hsp : (calculate_liquidation_metrics s.active_period_events (now - a)).speed_usd_per_sec <
      BASE_THRESHOLD_USD_PER_SEC)
    (hgr : now - b ≥ ACTIVE_IDLE_TRANSITION_GRACE_PERIOD_SECONDS) :
    check_and_transition s events now sendOk =
      ({ (if sendOk then { s with last_summary_sent := some now } else s) with
          state := MState.IDLE
          active_since := none
          active_period_events := []
          prev_known_speed := 0
          last_known_speed :=
            (calculate_liquidation_metrics s.active_period_events
              (now - a)).speed_usd_per_sec },
        some ⟨calculate_liquidation_metrics s.active_period_events (now - a),
          calculate_acceleration
            (calculate_liquidation_metrics s.active_period_events (now - a)).speed_usd_per_sec
            s.prev_known_speed,
          s.prev_known_speed⟩) := by
  simp only [check_and_transition, hA, ha, hb, Option.getD_some]
  rw [if_pos hsp, if_pos hgr]

theorem active_stay_high {a : ℚ} (s : MonitorState) (events : List Event) (now : ℚ)
    (sendOk : Bool) (hA : s.state = MState.ACTIVE) (ha : s.active_since = some a)
    (hsp : ¬ (calculate_liquidation_metrics s.active_period_events
      (now - a)).speed_usd_per_sec < BASE_THRESHOLD_USD_PER_SEC) :
    check_and_transition s events now sendOk =
      ({ s with
          last_above_threshold_time := some now
          last_known_speed :=
            (calculate_liquidation_metrics s.active_period_events
              (now - a)).speed_usd_per_sec }, none) := by
  simp only [check_and_transition, hA, ha]
  rw [if_neg hsp]

theorem active_grace_pending {a b : ℚ} (s : MonitorState) (events : List Event) (now : ℚ)
    (sendOk : Bool) (hA : s.state = MState.ACTIVE) (ha : s.active_since = some a)
    (hb : s.last_above_threshold_time = some b)
    (hsp : (calculate_liquidation_metrics s.active_period_events (now - a)).speed_usd_per_sec <
      BASE_THRESHOLD_USD_PER_SEC)
    (hngr : ¬ now - b ≥ ACTIVE_IDLE_TRANSITION_GRACE_PERIOD_SECONDS) :
    check_and_transition s events now sendOk =
      ({ s with
          last_known_speed :=
            (calculate_liquidation_metrics s.active_period_events
              (now - a)).speed_usd_per_sec }, none) := by
  simp only [check_and_transition, hA, ha, hb, Option.getD_some]
  rw [if_pos hsp, if_neg hngr]

/- Claim theorems. -/

/-- C4: calculate_acceleration returns current_speed / prev_speed (uncapped) when
prev_speed > 500, the fixed cap ACCELERATION_THRESHOLD (default 3.0) when
prev_speed ≤ 500 and current_speed > 0, and 1.0 otherwise; in particular
(1200, 600) gives exactly 2.0, (100, 100) gives the configured cap, and
(0, 0) gives 1.0. -/
theorem C4_calculate_acceleration (current_speed prev_speed : ℚ) :
    (prev_speed > 500 →
      calculate_acceleration current_speed prev_speed = current_speed / prev_speed) ∧
    (prev_speed ≤ 500 → current_speed > 0 →
      calculate_acceleration current_speed prev_speed = ACCELERATION_THRESHOLD) ∧
    (prev_speed ≤ 500 → current_speed ≤ 0 →
      calculate_acceleration current_speed prev_speed = 1) ∧
    calculate_acceleration 1200 600 = 2 ∧
    calculate_acceleration 100 100 = ACCELERATION_THRESHOLD ∧
    calculate_acceleration 0 0 = 1 := by
  refine ⟨?_, ?_, ?_, ?_, ?_, ?_⟩
  · intro h
    rw [calculate_acceleration, if_pos h]
  · intro h1 h2
    rw [calculate_acceleration, if_neg (not_lt.mpr h1), if_pos h2]
  · intro h1 h2
    rw [calculate_acceleration, if_neg (not_lt.mpr h1), if_neg (not_lt.mpr h2)]
  · norm_num [calculate_acceleration]
  · norm_num [calculate_acceleration]
  · norm_num [calculate_acceleration]

/-- C4 witness: the ratio branch of C4_calculate_acceleration at (1000, 600). -/
theorem C4_calculate_acceleration_witness :
    calculate_acceleration 1000 600 = 1000 / 600 :=
  (C4_calculate_acceleration 1000 600).1 (by norm_num)

/-- C5: each distinct ticker maps to its share of total_amount when the total is
positive (and only present tickers appear, with exactly that share), the shares
sum to one, and the mapping is entirely empty when total_amount is zero. -/
theorem C5_dominance (events : List Event) (w : ℚ) :
    ((events.map (fun e => e.amount)).sum = 0 →
      (calculate_liquidation_metrics events w).dominance_info = []) ∧
    (0 < (events.map (fun e => e.amount)).sum →
      ∀ t, (∃ e ∈ events, e.ticker = t) →
        (t, tickerAmount events t / (events.map (fun e => e.amount)).sum) ∈
          (calculate_liquidation_metrics events w).dominance_info) ∧
    (0 < (events.map (fun e => e.amount)).sum →
      ∀ p ∈ (calculate_liquidation_metrics events w).dominance_info,
        (∃ e ∈ events, e.ticker = p.1) ∧
          p.2 = tickerAmount events p.1 / (events.map (fun e => e.amount)).sum) ∧
    (0 < (events.map (fun e => e.amount)).sum →
      ((calculate_liquidation_metrics events w).dominance_info.map Prod.snd).sum = 1) := by
  refine ⟨?_, ?_, ?_, ?_⟩
  · intro h
    simp only [calculate_liquidation_metrics]
    rw [if_neg (by rw [h]; exact lt_irrefl 0)]
  · intro h t ⟨e, he, het⟩
    simp only [calculate_liquidation_metrics]
    rw [if_pos h]
    exact List.mem_map_of_mem _
      (List.mem_dedup.mpr (het ▸ List.mem_map_of_mem (fun e => e.ticker) he))
  · intro h p hp
    simp only [calculate_liquidation_metrics] at hp
    rw [if_pos h] at hp
    rcases List.mem_map.mp hp with ⟨t, ht, rfl⟩
    rcases List.mem_map.mp (List.mem_dedup.mp ht) with ⟨e, he, rfl⟩
    exact ⟨⟨e, he, rfl⟩, rfl⟩
  · intro h
    simp only [calculate_liquidation_metrics]
    rw [if_pos h, List.map_map]
    have hcomp : (Prod.snd ∘ fun t =>
        ((t : String), tickerAmount events t / (events.map (fun e => e.amount)).sum)) =
        fun t => tickerAmount events t / (events.map (fun e => e.amount)).sum := rfl
    rw [hcomp, list_sum_map_div, sum_tickerAmount events (distinctTickers events)
      (List.nodup_dedup _)
      (fun e he => List.mem_dedup.mpr (List.mem_map_of_mem (fun e => e.ticker) he)),
      div_self (ne_of_gt h)]

/-- C5 witness: the shares sum to one for a concrete two-ticker window. -/
theorem C5_dominance_witness :
    ((calculate_liquidation_metrics
      [⟨sampleTs, "BTC", "Long", 75⟩, ⟨sampleTs, "ETH", "Short", 25⟩] 10).dominance_info.map
        Prod.snd).sum = 1 :=
  (C5_dominance [⟨sampleTs, "BTC", "Long", 75⟩, ⟨sampleTs, "ETH", "Short", 25⟩] 10).2.2.2
    (by norm_num)

/-- C6: long_bias is the Long share of the directional amount and short_bias its
complement, summing to one, whenever the directional amount is positive; both
are exactly zero when there is no directional amount. -/
theorem C6_bias (events : List Event) (w : ℚ) :
    (0 < ((events.filter (fun e => e.direction == "Long" || e.direction == "Short")).map
        (fun e => e.amount)).sum →
      (calculate_liquidation_metrics events w).long_bias =
        ((events.filter (fun e => e.direction == "Long")).map (fun e => e.amount)).sum /
          ((events.filter (fun e => e.direction == "Long" || e.direction == "Short")).map
            (fun e => e.amount)).sum ∧
      (calculate_liquidation_metrics events w).short_bias =
        1 - (calculate_liquidation_metrics events w).long_bias ∧
      (calculate_liquidation_metrics events w).long_bias +
        (calculate_liquidation_metrics events w).short_bias = 1) ∧
    (¬ 0 < ((events.filter (fun e => e.direction == "Long" || e.direction == "Short")).map
        (fun e => e.amount)).sum →
      (calculate_liquidation_metrics events w).long_bias = 0 ∧
      (calculate_liquidation_metrics events w).short_bias = 0) := by
  constructor
  · intro h
    simp only [calculate_liquidation_metrics]
    split_ifs with hc
    · exact ⟨rfl, rfl, by ring⟩
    · exact absurd h hc
  · intro h
    simp only [calculate_liquidation_metrics]
    split_ifs with hc
    · exact absurd hc h
    · exact ⟨rfl, rfl⟩

/-- C6 witness: biases at a concrete mixed-direction window. -/
theorem C6_bias_witness :
    (calculate_liquidation_metrics
      [⟨sampleTs, "BTC", "Long", 60⟩, ⟨sampleTs, "ETH", "Short", 40⟩] 10).long_bias +
    (calculate_liquidation_metrics
      [⟨sampleTs, "BTC", "Long", 60⟩, ⟨sampleTs, "ETH", "Short", 40⟩] 10).short_bias = 1 :=
  ((C6_bias [⟨sampleTs, "BTC", "Long", 60⟩, ⟨sampleTs, "ETH", "Short", 40⟩] 10).1
    (by norm_num)).2.2

/-- C8: after any sequence of appends starting from the empty store the
liquidations table holds at most LIQUIDATION_HISTORY_LIMIT rows, and one append
to any well-formed store lands within the bound, because each append inserts
the new row and then deletes every row not among the LIQUIDATION_HISTORY_LIMIT
most recent in (timestamp, id) descending order. -/
theorem C8_store_bound :
    (∀ ops : List (String × String × String × ℚ),
      ((ops.foldl (fun db o => add_liquidation db o.1 o.2.1 o.2.2.1 o.2.2.2) emptyDb).rows.length
        ≤ LIQUIDATION_HISTORY_LIMIT)) ∧
    (∀ (db : LiqDb) (ts tk dr : String) (a : ℚ), WFDb db →
      (add_liquidation db ts tk dr a).rows.length ≤ LIQUIDATION_HISTORY_LIMIT) := by
  constructor
  · intro ops
    have main : ∀ (l : List (String × String × String × ℚ)) (db : LiqDb), WFDb db →
        db.rows.length ≤ LIQUIDATION_HISTORY_LIMIT →
        WFDb (l.foldl (fun db o => add_liquidation db o.1 o.2.1 o.2.2.1 o.2.2.2) db) ∧
        (l.foldl (fun db o => add_liquidation db o.1 o.2.1 o.2.2.1 o.2.2.2) db).rows.length ≤
          LIQUIDATION_HISTORY_LIMIT := by
      intro l
      induction l with
      | nil => exact fun db h1 h2 => ⟨h1, h2⟩
      | cons o rest ih =>
        intro db h1 h2
        have hstep := add_liquidation_spec db o.1 o.2.1 o.2.2.1 o.2.2.2 h1
        exact ih _ hstep.2 hstep.1
    exact (main ops emptyDb ⟨by simp [emptyDb], by simp [emptyDb]⟩
      (by simp [emptyDb, LIQUIDATION_HISTORY_LIMIT])).2
  · intro db ts tk dr a h
    exact (add_liquidation_spec db ts tk dr a h).1

/-- C8 witness: one append to the empty store stays within the bound. -/
theorem C8_store_bound_witness :
    (add_liquidation emptyDb "2024-01-01 00:00:00" "BTC" "Long" 5).rows.length ≤
      LIQUIDATION_HISTORY_LIMIT :=
  C8_store_bound.2 emptyDb "2024-01-01 00:00:00" "BTC" "Long" 5
    ⟨by simp [emptyDb], by simp [emptyDb]⟩

/-- C1: an IDLE evaluation with window speed at or above BASE_THRESHOLD_USD_PER_SEC
and the cooldown satisfied (no summary ever sent, or at least
SUMMARY_COOLDOWN_SECONDS elapsed) transitions to ACTIVE, copies the IDLE-window
events into active_period_events, sets active_since and
last_above_threshold_time to now, and sets prev_known_speed to the previous
evaluation speed last_known_speed. -/
theorem C1_idle_to_active (s : MonitorState) (events : List Event) (now : ℚ) (sendOk : Bool)
    (hIdle : s.state = MState.IDLE)
    (hspeed : (calculate_liquidation_metrics events ANALYSIS_WINDOW_SECONDS).speed_usd_per_sec ≥
      BASE_THRESHOLD_USD_PER_SEC)
    (hcool : s.last_summary_sent = none ∨
      ∃ t, s.last_summary_sent = some t ∧ now - t ≥ SUMMARY_COOLDOWN_SECONDS) :
    (check_and_transition s events now sendOk).1.state = MState.ACTIVE ∧
    (check_and_transition s events now sendOk).1.active_period_events = events ∧
    (check_and_transition s events now sendOk).1.active_since = some now ∧
    (check_and_transition s events now sendOk).1.prev_known_speed = s.last_known_speed ∧
    (check_and_transition s events now sendOk).1.last_above_threshold_time = some now := by
  rw [idle_fire s events now sendOk hIdle hspeed hcool]
  exact ⟨rfl, rfl, rfl, rfl, rfl⟩

/-- C1 witness: the initial monitor fires on a concrete 20000 USD/sec window. -/
theorem C1_idle_to_active_witness :
    (check_and_transition initialMonitor [⟨sampleTs, "BTC", "Long", 6000000⟩] 0 true).1.state =
      MState.ACTIVE ∧
    (check_and_transition initialMonitor [⟨sampleTs, "BTC", "Long", 6000000⟩] 0
      true).1.active_period_events = [⟨sampleTs, "BTC", "Long", 6000000⟩] ∧
    (check_and_transition initialMonitor [⟨sampleTs, "BTC", "Long", 6000000⟩] 0
      true).1.active_since = some 0 ∧
    (check_and_transition initialMonitor [⟨sampleTs, "BTC", "Long", 6000000⟩] 0
      true).1.prev_known_speed = initialMonitor.last_known_speed ∧
    (check_and_transition initialMonitor [⟨sampleTs, "BTC", "Long", 6000000⟩] 0
      true).1.last_above_threshold_time = some 0 :=
  C1_idle_to_active initialMonitor [⟨sampleTs, "BTC", "Long", 6000000⟩] 0 true rfl
    (by norm_num [calculate_liquidation_metrics, ANALYSIS_WINDOW_SECONDS,
      BASE_THRESHOLD_USD_PER_SEC])
    (Or.inl rfl)

/-- C2 counterexample: a concrete ACTIVE evaluation (buffer speed 100, grace
elapsed) does transition to IDLE, yet the resulting last_known_speed is 100,
not 0: the step does not zero both speeds as the claim states, because the
unconditional end-of-branch update overwrites the zeroing. -/
theorem C2_counterexample :
    (check_and_transition
      ⟨MState.ACTIVE, some 0, none, 50, 600, some 0, [⟨sampleTs, "BTC", "Long", 3000⟩]⟩
      [] 30 true).1.state = MState.IDLE ∧
    (check_and_transition
      ⟨MState.ACTIVE, some 0, none, 50, 600, some 0, [⟨sampleTs, "BTC", "Long", 3000⟩]⟩
      [] 30 true).1.last_known_speed = 100 ∧ (100 : ℚ) ≠ 0 := by
  refine ⟨?_, ?_, by norm_num⟩ <;>
    norm_num [check_and_transition, calculate_liquidation_metrics, distinctTickers,
      tickerAmount, calculate_acceleration, ACCELERATION_THRESHOLD,
      BASE_THRESHOLD_USD_PER_SEC, ACTIVE_IDLE_TRANSITION_GRACE_PERIOD_SECONDS]

/-- C2 (amended): an ACTIVE evaluation returns to IDLE exactly when the speed
over the growing window now - active_since of the in-memory buffer is below
the threshold and the grace period since last_above_threshold_time has fully
elapsed; on that transition it recomputes metrics over the whole buffer,
computes acceleration against prev_known_speed, emits one summary payload and
resets, clearing the buffer and active_since and zeroing prev_known_speed,
while last_known_speed ends as the final below-threshold speed (not 0, the
in-transition zeroing being overwritten by the end-of-branch update); when the
speed is at or above the threshold the grace anchor is refreshed to now, and a
below-threshold sample inside the grace period only updates last_known_speed. -/
theorem C2_active_to_idle {a b : ℚ} (s : MonitorState) (events : List Event) (now : ℚ)
    (sendOk : Bool) (hA : s.state = MState.ACTIVE) (ha : s.active_since = some a)
    (hb : s.last_above_threshold_time = some b) :
    ((check_and_transition s events now sendOk).1.state = MState.IDLE ↔
      ((calculate_liquidation_metrics s.active_period_events (now - a)).speed_usd_per_sec <
          BASE_THRESHOLD_USD_PER_SEC ∧
        now - b ≥ ACTIVE_IDLE_TRANSITION_GRACE_PERIOD_SECONDS)) ∧
    ((calculate_liquidation_metrics s.active_period_events (now - a)).speed_usd_per_sec <
        BASE_THRESHOLD_USD_PER_SEC →
      now - b ≥ ACTIVE_IDLE_TRANSITION_GRACE_PERIOD_SECONDS →
      ((check_and_transition s events now sendOk).2 =
        some ⟨calculate_liquidation_metrics s.active_period_events (now - a),
          calculate_acceleration
            (calculate_liquidation_metrics s.active_period_events (now - a)).speed_usd_per_sec
            s.prev_known_speed,
          s.prev_known_speed⟩ ∧
        (check_and_transition s events now sendOk).1.active_period_events = [] ∧
        (check_and_transition s events now sendOk).1.active_since = none ∧
        (check_and_transition s events now sendOk).1.prev_known_speed = 0 ∧
        (check_and_transition s events now sendOk).1.last_known_speed =
          (calculate_liquidation_metrics s.active_period_events
            (now - a)).speed_usd_per_sec)) ∧
    (¬ (calculate_liquidation_metrics s.active_period_events (now - a)).speed_usd_per_sec <
        BASE_THRESHOLD_USD_PER_SEC →
      (check_and_transition s events now sendOk).1.state = MState.ACTIVE ∧
      (check_and_transition s events now sendOk).1.last_above_threshold_time = some now ∧
      (check_and_transition s events now sendOk).2 = none) ∧
    ((calculate_liquidation_metrics s.active_period_events (now - a)).speed_usd_per_sec <
        BASE_THRESHOLD_USD_PER_SEC →
      now - b < ACTIVE_IDLE_TRANSITION_GRACE_PERIOD_SECONDS →
      (check_and_transition s events now sendOk).1 =
        { s with last_known_speed :=
            (calculate_liquidation_metrics s.active_period_events
              (now - a)).speed_usd_per_sec } ∧
      (check_and_transition s events now sendOk).2 = none) := by
  by_cases hsp : (calculate_liquidation_metrics s.active_period_events
      (now - a)).speed_usd_per_sec < BASE_THRESHOLD_USD_PER_SEC
  · by_cases hgr : now - b ≥ ACTIVE_IDLE_TRANSITION_GRACE_PERIOD_SECONDS
    · rw [active_fire s events now sendOk hA ha hb hsp hgr]
      refine ⟨by simp [hsp, hgr], ?_, ?_, ?_⟩
      · intro _ _
        exact ⟨rfl, rfl, rfl, rfl, rfl⟩
      · intro hnsp
        exact absurd hsp hnsp
      · intro _ hlt
        exact absurd hgr (not_le.mpr hlt)
    · rw [active_grace_pending s events now sendOk hA ha hb hsp hgr]
      refine ⟨by simp [hA, hgr], ?_, ?_, ?_⟩
      · intro _ hgr2
        exact absurd hgr2 hgr
      · intro hnsp
        exact absurd hsp hnsp
      · intro _ _
        exact ⟨rfl, rfl⟩
  · rw [active_stay_high s events now sendOk hA ha hsp]
    refine ⟨by simp [hA, hsp], ?_, ?_, ?_⟩
    · intro h2 _
      exact absurd h2 hsp
    · intro _
      exact ⟨hA, rfl, rfl⟩
    · intro h2 _
      exact absurd h2 hsp

/-- C2 witness: the transition fires at a concrete below-threshold window with
the grace period elapsed. -/
theorem C2_active_to_idle_witness :
    (check_and_transition
      ⟨MState.ACTIVE, some 0, some (-500), 10, 700, some 5, [⟨sampleTs, "ETH", "Short", 4000⟩]⟩
      [] 40 true).1.state = MState.IDLE :=
  (C2_active_to_idle
    ⟨MState.ACTIVE, some 0, some (-500), 10, 700, some 5, [⟨sampleTs, "ETH", "Short", 4000⟩]⟩
    [] 40 true rfl rfl rfl).1.mpr
    ⟨by norm_num [calculate_liquidation_metrics, BASE_THRESHOLD_USD_PER_SEC],
      by norm_num [ACTIVE_IDLE_TRANSITION_GRACE_PERIOD_SECONDS]⟩

/-- C3 counterexample: a concrete blocked IDLE evaluation (speed 20000 at or
above the threshold, summary sent 10 seconds ago) leaves last_known_speed at
its old value 7 instead of updating it to the current speed 20000: the claim
that the blocked evaluation still updates last_known_speed is false. -/
theorem C3_counterexample :
    (check_and_transition ⟨MState.IDLE, none, some 0, 7, 0, none, []⟩
      [⟨sampleTs, "BTC", "Long", 6000000⟩] 10 true).1.last_known_speed = 7 ∧
    (calculate_liquidation_metrics [⟨sampleTs, "BTC", "Long", 6000000⟩]
      ANALYSIS_WINDOW_SECONDS).speed_usd_per_sec = 20000 ∧ (7 : ℚ) ≠ 20000 := by
  refine ⟨?_, ?_, by norm_num⟩ <;>
    norm_num [check_and_transition, calculate_liquidation_metrics, ANALYSIS_WINDOW_SECONDS,
      BASE_THRESHOLD_USD_PER_SEC, SUMMARY_COOLDOWN_SECONDS]

/-- C3 (amended): when the IDLE window speed is at or above the threshold but a
summary was sent less than SUMMARY_COOLDOWN_SECONDS ago, the evaluation
returns early and changes nothing at all: the state stays IDLE, no
notification is produced, and no monitor field changes, last_known_speed
included (it is not updated to the current speed). -/
theorem C3_cooldown_blocked {t : ℚ} (s : MonitorState) (events : List Event) (now : ℚ)
    (sendOk : Bool) (hIdle : s.state = MState.IDLE)
    (hspeed : (calculate_liquidation_metrics events ANALYSIS_WINDOW_SECONDS).speed_usd_per_sec ≥
      BASE_THRESHOLD_USD_PER_SEC)
    (ht : s.last_summary_sent = some t) (hlt : now - t < SUMMARY_COOLDOWN_SECONDS) :
    check_and_transition s events now sendOk = (s, none) :=
  idle_blocked s events now sendOk hIdle hspeed ht hlt

/-- C3 witness: the blocked evaluation at a concrete input returns the state
unchanged. -/
theorem C3_cooldown_blocked_witness :
    check_and_transition ⟨MState.IDLE, none, some 0, 7, 0, none, []⟩
      [⟨sampleTs, "BTC", "Long", 6000000⟩] 10 true =
      (⟨MState.IDLE, none, some 0, 7, 0, none, []⟩, none) :=
  C3_cooldown_blocked ⟨MState.IDLE, none, some 0, 7, 0, none, []⟩
    [⟨sampleTs, "BTC", "Long", 6000000⟩] 10 true rfl
    (by norm_num [calculate_liquidation_metrics, ANALYSIS_WINDOW_SECONDS,
      BASE_THRESHOLD_USD_PER_SEC])
    rfl (by norm_num [SUMMARY_COOLDOWN_SECONDS])

/-- C10 counterexample: at a concrete ACTIVE to IDLE transition with a failed
send, the reset does occur and last_summary_sent keeps its previous value,
but last_known_speed ends as the 200 USD/sec window speed rather than 0, so
the parenthetical claim that both speeds are cleared is false. -/
theorem C10_counterexample :
    (check_and_transition
      ⟨MState.ACTIVE, some 0, some 1, 42, 9000, some 2, [⟨sampleTs, "SOL", "Long", 8000⟩]⟩
      [] 40 false).1.state = MState.IDLE ∧
    (check_and_transition
      ⟨MState.ACTIVE, some 0, some 1, 42, 9000, some 2, [⟨sampleTs, "SOL", "Long", 8000⟩]⟩
      [] 40 false).1.last_summary_sent = some 1 ∧
    (check_and_transition
      ⟨MState.ACTIVE, some 0, some 1, 42, 9000, some 2, [⟨sampleTs, "SOL", "Long", 8000⟩]⟩
      [] 40 false).1.last_known_speed = 200 ∧ (200 : ℚ) ≠ 0 := by
  refine ⟨?_, ?_, ?_, by norm_num⟩ <;>
    norm_num [check_and_transition, calculate_liquidation_metrics, distinctTickers,
      tickerAmount, calculate_acceleration, ACCELERATION_THRESHOLD,
      BASE_THRESHOLD_USD_PER_SEC, ACTIVE_IDLE_TRANSITION_GRACE_PERIOD_SECONDS]

/-- C10 (amended): on an ACTIVE to IDLE transition, last_summary_sent is set to
now exactly when the summary send succeeds; when the send fails it keeps its
previous value while the reset still occurs (buffer and active_since cleared,
prev_known_speed zeroed, last_known_speed set to the final below-threshold
speed), so the cooldown is not started and an immediately following IDLE
evaluation with speed at or above the threshold (here with no summary ever
sent) transitions straight back to ACTIVE. -/
theorem C10_failed_send {a b : ℚ} (s : MonitorState) (events : List Event) (now : ℚ)
    (hA : s.state = MState.ACTIVE) (ha : s.active_since = some a)
    (hb : s.last_above_threshold_time = some b)
    (hsp : (calculate_liquidation_metrics s.active_period_events (now - a)).speed_usd_per_sec <
      BASE_THRESHOLD_USD_PER_SEC)
    (hgr : now - b ≥ ACTIVE_IDLE_TRANSITION_GRACE_PERIOD_SECONDS) :
    (check_and_transition s events now true).1.last_summary_sent = some now ∧
    (check_and_transition s events now false).1.last_summary_sent = s.last_summary_sent ∧
    ((check_and_transition s events now false).1.state = MState.IDLE ∧
      (check_and_transition s events now false).1.active_period_events = [] ∧
      (check_and_transition s events now false).1.active_since = none ∧
      (check_and_transition s events now false).1.prev_known_speed = 0 ∧
      (check_and_transition s events now false).1.last_known_speed =
        (calculate_liquidation_metrics s.active_period_events (now - a)).speed_usd_per_sec) ∧
    (∀ (events2 : List Event) (now2 : ℚ) (sendOk2 : Bool),
      s.last_summary_sent = none →
      (calculate_liquidation_metrics events2 ANALYSIS_WINDOW_SECONDS).speed_usd_per_sec ≥
        BASE_THRESHOLD_USD_PER_SEC →
      (check_and_transition (check_and_transition s events now false).1 events2 now2
        sendOk2).1.state = MState.ACTIVE) := by
  have h1t := active_fire s events now true hA ha hb hsp hgr
  have h1f := active_fire s events now false hA ha hb hsp hgr
  refine ⟨?_, ?_, ?_, ?_⟩
  · rw [h1t]
    simp
  · rw [h1f]
    simp
  · rw [h1f]
    exact ⟨rfl, rfl, rfl, rfl, rfl⟩
  · intro events2 now2 sendOk2 hnone hsp2
    have hs1 : (check_and_transition s events now false).1 =
        { (if false = true then { s with last_summary_sent := some now } else s) with
            state := MState.IDLE
            active_since := none
            active_period_events := []
            prev_known_speed := 0
            last_known_speed :=
              (calculate_liquidation_metrics s.active_period_events
                (now - a)).speed_usd_per_sec } := congrArg Prod.fst h1f
    have hstate : (check_and_transition s events now false).1.state = MState.IDLE := by
      rw [hs1]
    have hlss : (check_and_transition s events now false).1.last_summary_sent = none := by
      rw [hs1]
      simpa using hnone
    rw [idle_fire _ events2 now2 sendOk2 hstate hsp2 (Or.inl hlss)]

/-- C10 witness: a concrete failed-send transition followed by an IDLE
evaluation with speed at the threshold lands straight back in ACTIVE. -/
theorem C10_failed_send_witness :
    (check_and_transition
      (check_and_transition
        ⟨MState.ACTIVE, some 0, none, 5, 800, some 3, [⟨sampleTs, "XRP", "Short", 6000⟩]⟩
        [] 40 false).1
      [⟨sampleTs, "BTC", "Long", 6000000⟩] 50 true).1.state = MState.ACTIVE :=
  (C10_failed_send
    ⟨MState.ACTIVE, some 0, none, 5, 800, some 3, [⟨sampleTs, "XRP", "Short", 6000⟩]⟩
    [] 40 rfl rfl rfl
    (by norm_num [calculate_liquidation_metrics, BASE_THRESHOLD_USD_PER_SEC])
    (by norm_num [ACTIVE_IDLE_TRANSITION_GRACE_PERIOD_SECONDS])).2.2.2
    [⟨sampleTs, "BTC", "Long", 6000000⟩] 50 true rfl
    (by norm_num [calculate_liquidation_metrics, ANALYSIS_WINDOW_SECONDS,
      BASE_THRESHOLD_USD_PER_SEC])

/-- C7: parsing the sample message yields (BTC, Long, 1250.50); amount parsing
strips dollar signs and comma separators, a trailing k multiplies the parsed
value by 1000 and a trailing M by 1000000, a value that fails numeric parsing
after stripping yields 0 (the function is total, so it never raises), and text
the pattern does not match yields no result. -/
theorem C7_parse_message :
    parse_liquidation_message "#BTC Long Liquidation: $1,250.50" =
      some ("BTC", "Long", 2501/2) ∧
    (∀ (s : String) (v : ℚ),
      (s.data.filter (fun c => c ≠ '$' && c ≠ ',')).getLast? = some 'k' →
      pyFloat ((s.data.filter (fun c => c ≠ '$' && c ≠ ',')).dropLast) = some v →
      _parse_amount s = v * 1000) ∧
    (∀ (s : String) (v : ℚ),
      (s.data.filter (fun c => c ≠ '$' && c ≠ ',')).getLast? = some 'M' →
      pyFloat ((s.data.filter (fun c => c ≠ '$' && c ≠ ',')).dropLast) = some v →
      _parse_amount s = v * 1000000) ∧
    (∀ s : String,
      pyFloat (suffixSplit (s.data.filter (fun c => c ≠ '$' && c ≠ ','))).2 = none →
      _parse_amount s = 0) ∧
    (∀ s : String, searchLiq s.data = none → parse_liquidation_message s = none) := by
  refine ⟨?_, ?_, ?_, ?_, ?_⟩
  · have hs : searchLiq "#BTC Long Liquidation: $1,250.50".data =
        some ("BTC".data, "Long".data, "$1,250.50".data) := by decide
    simp only [parse_liquidation_message]
    rw [if_neg (by decide)]
    simp only [hs]
    rw [show ("BTC".data.map Char.toUpper) = "BTC".data from by decide,
      show pyCapitalize "Long".data = "Long".data from by decide]
    have ha : _parse_amount (String.mk "$1,250.50".data) = 2501/2 := by
      simp only [_parse_amount]
      rw [if_neg (by decide)]
      have hsuf : suffixSplit ((String.mk "$1,250.50".data).data.filter
          (fun c => c ≠ '$' && c ≠ ',')) = (1, "1250.50".data) := by decide
      rw [hsuf]
      have hp : pyFloatScan "1250.50".data = some ⟨false, 1250, 4, 50, 2, false, 0⟩ := by decide
      rw [pyFloat, hp]
      norm_num
    rw [ha]
  · intro s v hk hv
    have hne : ¬ (s.data.isEmpty = true) := by
      intro hemp
      rw [List.isEmpty_iff.mp hemp] at hk
      simp at hk
    simp only [_parse_amount]
    rw [if_neg hne]
    rw [show suffixSplit (s.data.filter (fun c => c ≠ '$' && c ≠ ',')) =
        (1000, (s.data.filter (fun c => c ≠ '$' && c ≠ ',')).dropLast) from by
      simp only [suffixSplit]
      rw [if_pos hk]]
    rw [hv]
    norm_num
  · intro s v hM hv
    have hne : ¬ (s.data.isEmpty = true) := by
      intro hemp
      rw [List.isEmpty_iff.mp hemp] at hM
      simp at hM
    have hkn : ¬ ((s.data.filter (fun c => c ≠ '$' && c ≠ ',')).getLast? = some 'k') := by
      rw [hM]
      decide
    simp only [_parse_amount]
    rw [if_neg hne]
    rw [show suffixSplit (s.data.filter (fun c => c ≠ '$' && c ≠ ',')) =
        (1000000, (s.data.filter (fun c => c ≠ '$' && c ≠ ',')).dropLast) from by
      simp only [suffixSplit]
      rw [if_neg hkn, if_pos hM]]
    rw [hv]
    norm_num
  · intro s hf
    by_cases hemp : s.data.isEmpty = true
    · simp only [_parse_amount]
      rw [if_pos hemp]
    · simp only [_parse_amount]
      rw [if_neg hemp, hf]
  · intro s hn
    simp only [parse_liquidation_message]
    by_cases hemp : s.data.isEmpty = true
    · rw [if_pos hemp]
    · rw [if_neg hemp, hn]

/-- C7 witness: the k and M multipliers at the spec examples. -/
theorem C7_parse_message_witness :
    _parse_amount "$2k" = 2 * 1000 ∧ _parse_amount "$1.5M" = (3/2) * 1000000 := by
  constructor
  · refine C7_parse_message.2.1 "$2k" 2 (by decide) ?_
    rw [show (("$2k".data.filter (fun c => c ≠ '$' && c ≠ ',')).dropLast) = ['2'] from by decide]
    rw [pyFloat, show pyFloatScan ['2'] = some ⟨false, 2, 1, 0, 0, false, 0⟩ from by decide]
    norm_num
  · refine C7_parse_message.2.2.1 "$1.5M" (3/2) (by decide) ?_
    rw [show (("$1.5M".data.filter (fun c => c ≠ '$' && c ≠ ',')).dropLast) =
      ['1', '.', '5'] from by decide]
    rw [pyFloat, show pyFloatScan ['1', '.', '5'] = some ⟨false, 1, 1, 5, 1, false, 0⟩ from by
      decide]
    norm_num

/-- C9: the range query defaults its end bound to now when omitted; it returns
exactly the stored rows whose timestamp cell lies between the bounds (in the
TEXT ordering the store uses) and parses, in ascending timestamp order, and
every row whose timestamp fails to parse is skipped silently, so a window
holding only corrupted rows yields the empty sequence (the function is total,
so nothing is raised). -/
theorem C9_query (rows : List DbRow) (start_time : String) (end_time : Option String)
    (nowTs : String) :
    get_liquidations_in_timeframe rows start_time none nowTs =
      get_liquidations_in_timeframe rows start_time (some nowTs) nowTs ∧
    (∀ ev : Event, ev ∈ get_liquidations_in_timeframe rows start_time end_time nowTs ↔
      ∃ r, r ∈ rows ∧ strLeB start_time r.timestamp = true ∧
        strLeB r.timestamp (end_time.getD nowTs) = true ∧
        _to_datetime r.timestamp = some ev.timestamp ∧ ev.ticker = r.ticker ∧
        ev.direction = r.direction ∧ ev.amount = r.amount) ∧
    (selectBetween rows start_time (end_time.getD nowTs)).Pairwise
      (fun r1 r2 => ascRowLe r1 r2 = true) ∧
    get_liquidations_in_timeframe rows start_time end_time nowTs =
      (selectBetween rows start_time (end_time.getD nowTs)).filterMap rowToEvent ∧
    ((∀ r, r ∈ rows → strLeB start_time r.timestamp = true →
        strLeB r.timestamp (end_time.getD nowTs) = true → _to_datetime r.timestamp = none) →
      get_liquidations_in_timeframe rows start_time end_time nowTs = []) := by
  refine ⟨rfl, ?_, ?_, rfl, ?_⟩
  · intro ev
    simp only [get_liquidations_in_timeframe, selectBetween, List.mem_filterMap,
      List.mem_mergeSort, List.mem_filter, Bool.and_eq_true, rowToEvent_eq_some]
    constructor
    · rintro ⟨r, ⟨hr, h1, h2⟩, h3, h4, h5, h6⟩
      exact ⟨r, hr, h1, h2, h3, h4, h5, h6⟩
    · rintro ⟨r, hr, h1, h2, h3, h4, h5, h6⟩
      exact ⟨r, ⟨hr, h1, h2⟩, h3, h4, h5, h6⟩
  · exact List.sorted_mergeSort ascRowLe_trans ascRowLe_total _
  · intro hall
    simp only [get_liquidations_in_timeframe]
    rw [List.filterMap_eq_nil_iff]
    intro r hr
    have hr2 : r ∈ rows ∧ strLeB start_time r.timestamp = true ∧
        strLeB r.timestamp (end_time.getD nowTs) = true := by
      simpa [selectBetween] using hr
    simp only [rowToEvent, hall r hr2.1 hr2.2.1 hr2.2.2, Option.map_none']

/-- C9 witness: a window holding only a corrupted timestamp row yields the
empty sequence. -/
theorem C9_query_witness :
    get_liquidations_in_timeframe [⟨1, "2024-13-45 99:99", "BTC", "Long", 5⟩]
      "2000-01-01 00:00:00" none "2030-01-01 00:00:00" = [] :=
  (C9_query [⟨1, "2024-13-45 99:99", "BTC", "Long", 5⟩] "2000-01-01 00:00:00" none
    "2030-01-01 00:00:00").2.2.2.2 (by decide)
